import Mathlib

/-!
Verification of the workflow engine in `workflow.go` (package `flow`).

The Go code is shallowly embedded as follows.  Machine integers
(`int64`-backed identifier types) become `Int`.  The SQL store is a
`DB` record of tables; an `*sql.Tx` value becomes `Option Nat` (`none`
is Go's nil pointer, `some t` names an open transaction).  A `World`
carries the committed database, the pending view of every open
transaction, and a trace of the storage operations issued.  Fallible Go
returns `(v, error)` become `Outcome.ret v err`; dereferencing a nil
transaction becomes `Outcome.panic` (Go: nil-pointer panic).  Go's
`defer tx.Rollback()` is made explicit by `withDeferredRollback`, which
also runs on the panic path, as deferred calls do during unwinding.

One point deserves emphasis because several theorems below turn on it:
in all three of `ApplyEvent`, `New` and `AddNode` the source declares
`var tx *sql.Tx` and then, in the `otx == nil` branch, writes
`tx, err := db.Begin()`.  The `:=` declares a new, block-scoped `tx`
that shadows the outer one, so the outer `tx` used by the rest of the
function remains nil.  The embedding reproduces this faithfully.
-/

/-- Document-type identifier (`DocTypeID`, an `int64` in the source). -/
abbrev DocTypeID := Int

/-- Document-state identifier (`DocStateID`). -/
abbrev DocStateID := Int

/-- Document-action identifier (`DocActionID`). -/
abbrev DocActionID := Int

/-- Recipient-group identifier (`GroupID`). -/
abbrev GroupID := Int

/-- Node identifier (`NodeID`). -/
abbrev NodeID := Int

/-- Status of a `DocEvent`; the source compares against
`EventStatusApplied`.  The spec gives the status space as
{Created, Applied}. -/
inductive EventStatus where
  | Created
  | Applied
deriving DecidableEq, Repr

/-- Modelled from the spec: the `DocEvent` type lives in `docevent.go`,
which is not among the provided sources.  §3 of the spec: "DocEvent:
id, document type, the state at which it is being applied, the action
it carries, and a status in {Created, Applied}." -/
structure DocEvent where
  id : Int
  dtype : DocTypeID
  state : DocStateID
  action : DocActionID
  status : EventStatus
deriving DecidableEq, Repr

/-- The `Workflow` struct of the source: id, globally-unique name,
document type, begin state.  A row of `wf_workflows` scans into exactly
these fields, so the same type doubles as the table row. -/
structure Workflow where
  id : Int
  name : String
  dtype : DocTypeID
  bstate : DocStateID
deriving DecidableEq, Repr

/-- A row of `wf_workflow_nodes` (insert at workflow.go:270-274). -/
structure NodeRow where
  id : Int
  dtype : DocTypeID
  state : DocStateID
  wid : Int
  name : String
  ntype : Int
deriving DecidableEq, Repr

/-- A row of `wf_docstate_transitions` (insert at workflow.go:283-292). -/
structure TransitionRow where
  dtype : DocTypeID
  fromState : DocStateID
  action : DocActionID
  toState : DocStateID
deriving DecidableEq, Repr

/-- The relational store.  `eventStatuses` and `intents` back the
spec-modelled effects of `Node.applyEvent` (status flip and
notification intents); the other tables are those named in the source.
`nextWorkflowId` and `nextNodeId` model the auto-increment counters
read back through `res.LastInsertId()`. -/
structure DB where
  workflows : List Workflow
  nodes : List NodeRow
  transitions : List TransitionRow
  eventStatuses : List (Int × EventStatus)
  intents : List (Int × Int × GroupID)
  nextWorkflowId : Int
  nextNodeId : Int
deriving DecidableEq, Repr

/-- A statement executed through a transaction (`tx.Exec`). -/
inductive ExecReq where
  | insWorkflow (name : String) (dtype : DocTypeID) (bstate : DocStateID)
  | insNode (dtype : DocTypeID) (state : DocStateID) (wid : Int) (name : String) (ntype : Int)
  | insTransition (dtype : DocTypeID) (fromState : DocStateID) (action : DocActionID) (toState : DocStateID)
  | setEventApplied (eventId : Int)
  | insIntent (eventId : Int) (newState : DocStateID) (group : GroupID)
deriving DecidableEq, Repr

/-- A read query issued directly against the store (`db.Query`). -/
inductive QueryReq where
  | listWorkflows (limit offset : Int)
  | nodeByState (dtype : DocTypeID) (state : DocStateID)
deriving DecidableEq, Repr

/-- One storage operation, for the trace of a run. -/
inductive Op where
  | beginTx (txid : Nat)
  | exec (txid : Nat) (req : ExecReq)
  | query (q : QueryReq)
  | commit (txid : Nat)
  | rollback (txid : Nat)
deriving DecidableEq, Repr

/-- The state threaded through a run: the committed store, the pending
view of each open transaction, a supply of fresh transaction ids, a
flag injecting `db.Begin` failures (a store failure), and the trace of
storage operations issued so far. -/
structure World where
  committed : DB
  openTxs : Nat → Option DB
  nextTx : Nat
  beginFails : Bool
  trace : List Op

/-- Result of a Go call: a `(value, error)` return pair, or a runtime
panic (here: method call on a nil `*sql.Tx`). -/
inductive Outcome (α : Type) where
  | ret (val : α) (err : Option String)
  | panic
deriving DecidableEq, Repr

/-- Models `db.Begin()`: `none` models a failed begin (nil `*sql.Tx` plus a
non-nil error), otherwise a fresh transaction is opened over the
committed state. -/
def dbBegin (w : World) : Option Nat × World :=
  if w.beginFails then
    (none, w)
  else
    (some w.nextTx,
     { w with
        openTxs := fun j => if j = w.nextTx then some w.committed else w.openTxs j
        nextTx := w.nextTx + 1
        trace := w.trace ++ [Op.beginTx w.nextTx] })

/-- Constraint-checked insert/update against one database view.
Returns the `LastInsertId` (0 for statements without one) and the new
view, or the uniqueness-violation error the store reports:
`wf_workflows.name`, `wf_workflow_nodes(doctype_id, docstate_id)` and
`wf_docstate_transitions(doctype_id, from_state_id, docaction_id)` are
unique (spec §6). -/
def dbInsert : ExecReq → DB → Except String (Int × DB)
  | ExecReq.insWorkflow name dtype bstate, d =>
    if d.workflows.any (fun r => r.name == name) then
      Except.error "Duplicate entry for key wf_workflows.name"
    else
      Except.ok (d.nextWorkflowId,
        { d with
            workflows := d.workflows ++ [⟨d.nextWorkflowId, name, dtype, bstate⟩]
            nextWorkflowId := d.nextWorkflowId + 1 })
  | ExecReq.insNode dtype state wid name ntype, d =>
    if d.nodes.any (fun r => r.dtype == dtype && r.state == state) then
      Except.error "Duplicate entry for key wf_workflow_nodes.doctype_state"
    else
      Except.ok (d.nextNodeId,
        { d with
            nodes := d.nodes ++ [⟨d.nextNodeId, dtype, state, wid, name, ntype⟩]
            nextNodeId := d.nextNodeId + 1 })
  | ExecReq.insTransition dtype fromState action toState, d =>
    if d.transitions.any
        (fun r => r.dtype == dtype && r.fromState == fromState && r.action == action) then
      Except.error "Duplicate entry for key wf_docstate_transitions.key"
    else
      Except.ok (0, { d with transitions := d.transitions ++ [⟨dtype, fromState, action, toState⟩] })
  | ExecReq.setEventApplied eid, d =>
    Except.ok (0, { d with eventStatuses := (eid, EventStatus.Applied) :: d.eventStatuses })
  | ExecReq.insIntent eid nstate g, d =>
    Except.ok (0, { d with intents := d.intents ++ [(eid, nstate, g)] })

/-- Models `tx.Exec` followed by `res.LastInsertId()`.  A nil transaction
panics (Go: nil-pointer dereference); a closed one reports
`sql.ErrTxDone`; otherwise the statement runs against the
transaction's pending view and is traced. -/
def txExec (tx : Option Nat) (req : ExecReq) (w : World) : Outcome Int × World :=
  match tx with
  | none => (Outcome.panic, w)
  | some t =>
    match w.openTxs t with
    | none => (Outcome.ret 0 (some "sql: transaction has already been committed or rolled back"), w)
    | some pending =>
      let w1 : World := { w with trace := w.trace ++ [Op.exec t req] }
      match dbInsert req pending with
      | Except.error e => (Outcome.ret 0 (some e), w1)
      | Except.ok (id, pending') =>
        (Outcome.ret id none,
         { w1 with openTxs := fun j => if j = t then some pending' else w1.openTxs j })

/-- Models `tx.Commit()`: a nil transaction panics; a closed one reports
`sql.ErrTxDone`; otherwise the pending view becomes the committed
state. -/
def txCommit (tx : Option Nat) (w : World) : Outcome Unit × World :=
  match tx with
  | none => (Outcome.panic, w)
  | some t =>
    match w.openTxs t with
    | none => (Outcome.ret () (some "sql: transaction has already been committed or rolled back"), w)
    | some pending =>
      (Outcome.ret () none,
       { w with
          committed := pending
          openTxs := fun j => if j = t then none else w.openTxs j
          trace := w.trace ++ [Op.commit t] })

/-- The deferred `tx.Rollback()` on a transaction the function itself
began: discards the pending view if the transaction is still open, and
is a no-op (`sql.ErrTxDone`, error discarded) otherwise. -/
def txRollback (t : Nat) (w : World) : World :=
  match w.openTxs t with
  | none => w
  | some _ =>
    { w with
        openTxs := fun j => if j = t then none else w.openTxs j
        trace := w.trace ++ [Op.rollback t] }

/-- Runs the body of a function after its `defer tx.Rollback()` has
been registered on transaction `t`; the rollback runs on every exit,
the panic path included (Go runs deferred calls while unwinding). -/
def withDeferredRollback {α : Type} (t : Nat) (k : World → Outcome α × World) (w : World) :
    Outcome α × World :=
  match k w with
  | (r, w') => (r, txRollback t w')

/-- Appends a read query to the trace. -/
def dbTraceQuery (q : QueryReq) (w : World) : World :=
  { w with trace := w.trace ++ [Op.query q] }

/-- Whitespace as Go's `unicode.IsSpace` sees it for the code points
that can occur in names here: '\t', '\n', vertical tab, form feed,
'\r', ' ', next-line (U+0085) and no-break space (U+00A0). -/
def isSpaceChar (c : Char) : Bool :=
  (9 ≤ c.val && c.val ≤ 13) || c.val == 32 || c.val == 0x85 || c.val == 0xA0

/-- Models `strings.TrimSpace`: drops leading and trailing whitespace.
Defined over the character list so that it reduces in the kernel. -/
def trimSpace (s : String) : String :=
  ⟨((s.data.dropWhile isSpaceChar).reverse.dropWhile isSpaceChar).reverse⟩

/-- An in-memory node, as `Workflow.ApplyEvent` consumes it: the row
plus its transition table (the spec's §3 Node "owns the Transition
Table" for its (document type, state) pair). -/
structure Node where
  row : NodeRow
  transitions : List (DocActionID × DocStateID)
deriving DecidableEq, Repr

/-- Modelled from the spec: `_nodes.GetByState` lives in `node.go`,
which is not among the provided sources.  Spec §6: "Node Lookup:
getByState(documentType, state) -> Node | NotFound, consumed by
Workflow.ApplyEvent."  It reads the committed store directly (it runs
before any transaction is selected), returning the unique node
governing the pair together with its transition table. -/
def nodesGetByState (dtype : DocTypeID) (state : DocStateID) (w : World) :
    (Option Node × Option String) × World :=
  let w1 := dbTraceQuery (QueryReq.nodeByState dtype state) w
  match w1.committed.nodes.find? (fun r => r.dtype == dtype && r.state == state) with
  | none => ((none, some "no node found for the given document type and state"), w1)
  | some r =>
    ((some ⟨r, (w1.committed.transitions.filter
        (fun tr => tr.dtype == dtype && tr.fromState == state)).map
        (fun tr => (tr.action, tr.toState))⟩, none), w1)

/-- Inserts one notification intent per recipient group, in order,
through the given transaction (part of the spec-modelled
`Node.applyEvent`). -/
def insertIntents (tx : Option Nat) (eid : Int) (nstate : DocStateID)
    (recipients : List GroupID) (w : World) : Outcome Unit × World :=
  match recipients with
  | [] => (Outcome.ret () none, w)
  | g :: rest =>
    match txExec tx (ExecReq.insIntent eid nstate g) w with
    | (Outcome.panic, w') => (Outcome.panic, w')
    | (Outcome.ret _ (some e), w') => (Outcome.ret () (some e), w')
    | (Outcome.ret _ none, w') => insertIntents tx eid nstate rest w'

/-- Modelled from the spec: `Node.applyEvent` lives in `node.go`, which
is not among the provided sources.  Spec §4.2: look up
`toState = TransitionTable[event.action]`; if absent fail with
IllegalAction; otherwise, within the same unit of work, mark the
event's status Applied and record exactly one notification intent per
recipient group; return `toState`.  The updated in-memory event is
returned explicitly (the Go code mutates it through the pointer). -/
def nodeApplyEvent (n : Node) (tx : Option Nat) (event : DocEvent)
    (recipients : List GroupID) (w : World) : Outcome (DocStateID × DocEvent) × World :=
  match n.transitions.lookup event.action with
  | none => (Outcome.ret (0, event) (some "illegal action on the current state"), w)
  | some toState =>
    match txExec tx (ExecReq.setEventApplied event.id) w with
    | (Outcome.panic, w') => (Outcome.panic, w')
    | (Outcome.ret _ (some e), w') => (Outcome.ret (0, event) (some e), w')
    | (Outcome.ret _ none, w') =>
      match insertIntents tx event.id toState recipients w' with
      | (Outcome.panic, w'') => (Outcome.panic, w'')
      | (Outcome.ret _ (some e), w'') => (Outcome.ret (0, event) (some e), w'')
      | (Outcome.ret _ none, w'') =>
        (Outcome.ret (toState, { event with status := EventStatus.Applied }) none, w'')

/-- The error message built by `fmt.Errorf` at workflow.go:86. -/
def typeMismatchMsg (wd ed : DocTypeID) : String :=
  "document type mismatch -- workflow's document type : " ++ toString wd
    ++ ", event's document type : " ++ toString ed

/-- The error surfaced when `db.Begin()` itself fails (a store
failure; the concrete text is driver-specific). -/
def beginFailMsg : String := "store failure: begin"

/-- The tail of `Workflow.ApplyEvent` from workflow.go:105 on: delegate
to the node's `applyEvent` through `tx`, then commit `tx` only when the
caller supplied no transaction.  `tx` is the function's outer `tx`
variable; because of the shadowed `:=` at workflow.go:96 it is still
nil when `otx` was nil. -/
def applyEventRest (tx otx : Option Nat) (n : Node) (event : DocEvent)
    (recipients : List GroupID) (w : World) : Outcome (DocStateID × Option DocEvent) × World :=
  match nodeApplyEvent n tx event recipients w with
  | (Outcome.panic, w') => (Outcome.panic, w')
  | (Outcome.ret _ (some e), w') => (Outcome.ret (0, some event) (some e), w')
  | (Outcome.ret (nstate, ev') none, w') =>
    match otx with
    | none =>
      match txCommit tx w' with
      | (Outcome.panic, w'') => (Outcome.panic, w'')
      | (Outcome.ret _ (some e), w'') => (Outcome.ret (0, some ev') (some e), w'')
      | (Outcome.ret _ none, w'') => (Outcome.ret (nstate, some ev') none, w'')
    | some _ => (Outcome.ret (nstate, some ev') none, w')

/-- Embeds `Workflow.ApplyEvent` (workflow.go:75-118).  The returned pair
carries the new state together with the (possibly updated) in-memory
event the Go code reaches through its pointer argument.  The
`otx = none` branch reproduces the source's shadowed
`tx, err := db.Begin()`: the freshly begun transaction is only ever
rolled back by the deferred call, while the outer `tx` — still none —
is what the rest of the function uses. -/
def Workflow.ApplyEvent (wf : Workflow) (otx : Option Nat) (event? : Option DocEvent)
    (recipients : List GroupID) (w : World) : Outcome (DocStateID × Option DocEvent) × World :=
  match event? with
  | none => (Outcome.ret (0, none) (some "event should be non-nil"), w)
  | some event =>
    if recipients.length = 0 then
      (Outcome.ret (0, some event) (some "list of recipients should have length > 0"), w)
    else if event.status = EventStatus.Applied then
      (Outcome.ret (0, some event) (some "event already applied; nothing to do"), w)
    else if wf.dtype ≠ event.dtype then
      (Outcome.ret (0, some event) (some (typeMismatchMsg wf.dtype event.dtype)), w)
    else
      match nodesGetByState wf.dtype event.state w with
      | ((_, some e), w1) => (Outcome.ret (0, some event) (some e), w1)
      | ((none, none), w1) => (Outcome.panic, w1)
      | ((some n, none), w1) =>
        let tx : Option Nat := none
        match otx with
        | none =>
          match dbBegin w1 with
          | (none, w2) => (Outcome.ret (0, some event) (some beginFailMsg), w2)
          | (some inner, w2) =>
            withDeferredRollback inner (applyEventRest tx none n event recipients) w2
        | some t => applyEventRest (some t) (some t) n event recipients w1

/-- The tail of `_Workflows.New` from workflow.go:158 on: insert the
workflow row through `tx`, then commit `tx` only when the caller
supplied no transaction. -/
def workflowsNewRest (tx otx : Option Nat) (name : String) (dtype : DocTypeID)
    (state : DocStateID) (w : World) : Outcome Int × World :=
  match txExec tx (ExecReq.insWorkflow name dtype state) w with
  | (Outcome.panic, w') => (Outcome.panic, w')
  | (Outcome.ret _ (some e), w') => (Outcome.ret 0 (some e), w')
  | (Outcome.ret id none, w') =>
    match otx with
    | none =>
      match txCommit tx w' with
      | (Outcome.panic, w'') => (Outcome.panic, w'')
      | (Outcome.ret _ (some e), w'') => (Outcome.ret 0 (some e), w'')
      | (Outcome.ret _ none, w'') => (Outcome.ret id none, w'')
    | some _ => (Outcome.ret id none, w')

/-- Embeds `_Workflows.New` (workflow.go:141-179), with the same shadowed
`tx, err := db.Begin()` as `ApplyEvent`. -/
def WorkflowsNew (otx : Option Nat) (name : String) (dtype : DocTypeID)
    (state : DocStateID) (w : World) : Outcome Int × World :=
  let name := trimSpace name
  if name = "" then
    (Outcome.ret 0 (some "name should not be empty"), w)
  else
    let tx : Option Nat := none
    match otx with
    | none =>
      match dbBegin w with
      | (none, w1) => (Outcome.ret 0 (some beginFailMsg), w1)
      | (some inner, w1) =>
        withDeferredRollback inner (workflowsNewRest tx none name dtype state) w1
    | some t => workflowsNewRest (some t) (some t) name dtype state w

/-- The transition-insert loop of `_Workflows.AddNode`
(workflow.go:287-292): one insert per entry of the map, stopping at the
first failure.  Go iterates the map in unspecified order; the embedding
takes the entries as a list in iteration order. -/
def execTransitions (tx : Option Nat) (dtype : DocTypeID) (state : DocStateID)
    (hash : List (DocActionID × DocStateID)) (w : World) : Outcome Unit × World :=
  match hash with
  | [] => (Outcome.ret () none, w)
  | (da, ds) :: rest =>
    match txExec tx (ExecReq.insTransition dtype state da ds) w with
    | (Outcome.panic, w') => (Outcome.panic, w')
    | (Outcome.ret _ (some e), w') => (Outcome.ret () (some e), w')
    | (Outcome.ret _ none, w') => execTransitions tx dtype state rest w'

/-- The tail of `_Workflows.AddNode` from workflow.go:270 on: insert
the node row, then the transition rows, through `tx`; commit `tx` only
when the caller supplied no transaction. -/
def addNodeRest (tx otx : Option Nat) (dtype : DocTypeID) (state : DocStateID) (wid : Int)
    (name : String) (ntype : Int) (hash : List (DocActionID × DocStateID)) (w : World) :
    Outcome Int × World :=
  match txExec tx (ExecReq.insNode dtype state wid name ntype) w with
  | (Outcome.panic, w') => (Outcome.panic, w')
  | (Outcome.ret _ (some e), w') => (Outcome.ret 0 (some e), w')
  | (Outcome.ret id none, w') =>
    match execTransitions tx dtype state hash w' with
    | (Outcome.panic, w'') => (Outcome.panic, w'')
    | (Outcome.ret _ (some e), w'') => (Outcome.ret 0 (some e), w'')
    | (Outcome.ret _ none, w'') =>
      match otx with
      | none =>
        match txCommit tx w'' with
        | (Outcome.panic, w3) => (Outcome.panic, w3)
        | (Outcome.ret _ (some e), w3) => (Outcome.ret 0 (some e), w3)
        | (Outcome.ret _ none, w3) => (Outcome.ret id none, w3)
      | some _ => (Outcome.ret id none, w'')

/-- Embeds `_Workflows.AddNode` (workflow.go:249-302), with the same shadowed
`tx, err := db.Begin()` as the other two operations. -/
def WorkflowsAddNode (otx : Option Nat) (dtype : DocTypeID) (state : DocStateID) (wid : Int)
    (name : String) (ntype : Int) (hash : List (DocActionID × DocStateID)) (w : World) :
    Outcome Int × World :=
  let name := trimSpace name
  if name = "" then
    (Outcome.ret 0 (some "name should not be empty"), w)
  else if hash.length = 0 then
    (Outcome.ret 0 (some "transitions map should have length > 0"), w)
  else
    let tx : Option Nat := none
    match otx with
    | none =>
      match dbBegin w with
      | (none, w1) => (Outcome.ret 0 (some beginFailMsg), w1)
      | (some inner, w1) =>
        withDeferredRollback inner (addNodeRest tx none dtype state wid name ntype hash) w1
    | some t => addNodeRest (some t) (some t) dtype state wid name ntype hash w

/-- The ordering `ORDER BY id` sorts by (workflow.go:198). -/
def wfLe (a b : Workflow) : Prop := a.id ≤ b.id

instance : DecidableRel wfLe := fun a b => inferInstanceAs (Decidable (a.id ≤ b.id))

instance : IsTotal Workflow wfLe := ⟨fun a b => Int.le_total a.id b.id⟩

instance : IsTrans Workflow wfLe := ⟨fun _ _ _ => Int.le_trans⟩

/-- The row set of `SELECT ... FROM wf_workflows ORDER BY id`. -/
def sortWorkflows (l : List Workflow) : List Workflow :=
  List.insertionSort wfLe l

/-- Embeds `_Workflows.List` (workflow.go:187-221).  The query's
`LIMIT ? OFFSET ?` has SQL semantics: `OFFSET` skips that many rows of
the ordered result, `LIMIT` caps the count (`limit = 0` was replaced by
`math.MaxInt64` at workflow.go:192).  The nil slice of the error path
is `none`; the success path always returns an allocated slice
(`make([]*Workflow, 0, 10)`), hence `some`. -/
def WorkflowsList (offset limit : Int) (w : World) :
    Outcome (Option (List Workflow)) × World :=
  if offset < 0 ∨ limit < 0 then
    (Outcome.ret none (some "offset and limit must be non-negative integers"), w)
  else
    let limit := if limit = 0 then (9223372036854775807 : Int) else limit
    let w1 := dbTraceQuery (QueryReq.listWorkflows limit offset) w
    let rows := ((sortWorkflows w1.committed.workflows).drop offset.toNat).take limit.toNat
    (Outcome.ret (some rows) none, w1)

/-- The List contract as the spec words it (§4.3): `offset` is an
id-based lower bound — the result holds hte workflows with id ≥ offset,
ascending by id, capped at `limit` elements when `limit > 0`.  Stated
only to be compared against `WorkflowsList`, which embeds the source. -/
def listSpecIdLowerBound (offset limit : Int) (d : DB) : List Workflow :=
  let all := (sortWorkflows d.workflows).filter (fun r => offset ≤ r.id)
  if limit = 0 then all else all.take limit.toNat

/-- A store holding one node for (document type 1, state 10) with the
single transition action 1 ↦ state 20. -/
def dbFix : DB := ⟨[], [⟨1, 1, 10, 1, "n0", 1⟩], [⟨1, 10, 1, 20⟩], [], [], 1, 2⟩

/-- A quiescent world over `dbFix`: no open transaction, begins
succeed, empty trace. -/
def wFix : World := ⟨dbFix, fun _ => none, 0, false, []⟩

/-- An event of document type 1 at state 10 carrying action 1, not yet
applied. -/
def evFix : DocEvent := ⟨100, 1, 10, 1, EventStatus.Created⟩

/-- A workflow over document type 1 beginning at state 10. -/
def wfFix : Workflow := ⟨1, "wf", 1, 10⟩

/-- A store holding workflows with ids 1, 2, 3. -/
def dbThree : DB :=
  ⟨[⟨2, "b", 1, 10⟩, ⟨1, "a", 1, 10⟩, ⟨3, "c", 1, 10⟩], [], [], [], [], 4, 1⟩

/-- A quiescent world over `dbThree`. -/
def wThree : World := ⟨dbThree, fun _ => none, 0, false, []⟩

/-- C1: the claim says that with `otx == nil` each of `ApplyEvent`,
`New` and `AddNode` opens its own transaction, performs its storage
effects through it, and commits or rolls back.  The code opens one but,
through the shadowed `tx, err := db.Begin()`, binds it to a dead local:
on fully valid inputs every one of the three calls panics on the nil
outer `tx`, its trace shows the opened transaction is begun and rolled
back with no operation ever executed through it, and the store is left
untouched — nothing is ever committed. -/
theorem selfTxPathUsesNilTx :
    ((Workflow.ApplyEvent wfFix none (some evFix) [7] wFix).1 = Outcome.panic
      ∧ (Workflow.ApplyEvent wfFix none (some evFix) [7] wFix).2.trace
          = [Op.query (QueryReq.nodeByState 1 10), Op.beginTx 0, Op.rollback 0]
      ∧ (Workflow.ApplyEvent wfFix none (some evFix) [7] wFix).2.committed = dbFix)
    ∧ ((WorkflowsNew none "wfX" 1 10 wFix).1 = Outcome.panic
      ∧ (WorkflowsNew none "wfX" 1 10 wFix).2.trace = [Op.beginTx 0, Op.rollback 0]
      ∧ (WorkflowsNew none "wfX" 1 10 wFix).2.committed = dbFix)
    ∧ ((WorkflowsAddNode none 1 30 1 "n1" 1 [(2, 40)] wFix).1 = Outcome.panic
      ∧ (WorkflowsAddNode none 1 30 1 "n1" 1 [(2, 40)] wFix).2.trace
          = [Op.beginTx 0, Op.rollback 0]
      ∧ (WorkflowsAddNode none 1 30 1 "n1" 1 [(2, 40)] wFix).2.committed = dbFix) := by
  refine ⟨⟨rfl, rfl, rfl⟩, ⟨?_, ?_, ?_⟩, ⟨?_, ?_, ?_⟩⟩ <;> decide

/-- C2: the claim says `List(offset, limit)` with `offset > 0` returns
the workflows with id ≥ offset.  Over a store with ids 1, 2, 3 the
code's `LIMIT ? OFFSET ?` query makes `List(2, 0)` skip the first two
rows and return only id 3, where the claimed id-lower-bound reading —
`listSpecIdLowerBound`, i.e. the code's own doc comment "Result set
begins with ID >= offset" — yields ids 2 and 3. -/
theorem listOffsetSkipsRows :
    (WorkflowsList 2 0 wThree).1 = Outcome.ret (some [⟨3, "c", 1, 10⟩]) none
    ∧ listSpecIdLowerBound 2 0 wThree.committed = [⟨2, "b", 1, 10⟩, ⟨3, "c", 1, 10⟩]
    ∧ ([⟨3, "c", 1, 10⟩] : List Workflow) ≠ [⟨2, "b", 1, 10⟩, ⟨3, "c", 1, 10⟩] := by
  refine ⟨rfl, rfl, ?_⟩
  decide

/-- C6: the claim says `AddNode` inserts the node row and one
transition row per map entry, all-or-nothing.  On a valid call with no
caller transaction the code inserts nothing at all: it panics on the
nil outer `tx`, and its trace shows the transaction it opened is begun
and rolled back without a single insert having been executed through
it, leaving the store untouched. -/
theorem addNodeSelfTxInsertsNothing :
    (WorkflowsAddNode none 1 60 1 "n2" 1 [(4, 70), (5, 80)] wFix).1 = Outcome.panic
    ∧ (WorkflowsAddNode none 1 60 1 "n2" 1 [(4, 70), (5, 80)] wFix).2.trace
        = [Op.beginTx 0, Op.rollback 0]
    ∧ (WorkflowsAddNode none 1 60 1 "n2" 1 [(4, 70), (5, 80)] wFix).2.committed = dbFix := by
  refine ⟨?_, ?_, ?_⟩ <;> decide

/-- C7: `New` with a name that is blank after trimming, and `AddNode`
with a blank name or an empty transitions map, fail with the
InvalidArgument error and return the world untouched — no storage
operation of any kind is issued (the trace, the committed store and
every open transaction are exactly as before). -/
theorem validationRejectsBeforeStorage :
    (∀ otx name dtype state w, trimSpace name = "" →
        WorkflowsNew otx name dtype state w
          = (Outcome.ret 0 (some "name should not be empty"), w))
    ∧ (∀ otx dtype state wid name ntype hash w, trimSpace name = "" →
        WorkflowsAddNode otx dtype state wid name ntype hash w
          = (Outcome.ret 0 (some "name should not be empty"), w))
    ∧ (∀ otx dtype state wid name ntype w, trimSpace name ≠ "" →
        WorkflowsAddNode otx dtype state wid name ntype [] w
          = (Outcome.ret 0 (some "transitions map should have length > 0"), w)) := by
  refine ⟨?_, ?_, ?_⟩
  · intro otx name dtype state w h
    unfold WorkflowsNew
    simp [h]
  · intro otx dtype state wid name ntype hash w h
    unfold WorkflowsAddNode
    simp [h]
  · intro otx dtype state wid name ntype w h
    unfold WorkflowsAddNode
    simp [h]

/-- C7 witness: concrete blank-name and empty-map calls, rejected with
the world unchanged. -/
theorem validationRejectsBeforeStorageWitness :
    WorkflowsNew none "   " 1 10 wFix
        = (Outcome.ret 0 (some "name should not be empty"), wFix)
    ∧ WorkflowsAddNode none 1 30 1 " " 1 [(2, 40)] wFix
        = (Outcome.ret 0 (some "name should not be empty"), wFix)
    ∧ WorkflowsAddNode none 1 30 1 "n9" 1 [] wFix
        = (Outcome.ret 0 (some "transitions map should have length > 0"), wFix) :=
  ⟨validationRejectsBeforeStorage.1 none "   " 1 10 wFix (by decide),
   validationRejectsBeforeStorage.2.1 none 1 30 1 " " 1 [(2, 40)] wFix (by decide),
   validationRejectsBeforeStorage.2.2 none 1 30 1 "n9" 1 wFix (by decide)⟩

/-- C8: `List` rejects a negative offset or limit with the
InvalidArgument error without touching the world (no query is issued);
on non-negative arguments it succeeds, its result is ordered ascending
by id, and `limit = 0` returns every row from the offset to the end of
the table. -/
theorem listValidatesAndOrders (offset limit : Int) (w : World) :
    ((offset < 0 ∨ limit < 0) →
        WorkflowsList offset limit w
          = (Outcome.ret none (some "offset and limit must be non-negative integers"), w))
    ∧ (0 ≤ offset → 0 ≤ limit →
        ∃ res, (WorkflowsList offset limit w).1 = Outcome.ret (some res) none
          ∧ List.Sorted wfLe res
          ∧ (limit = 0 → w.committed.workflows.length ≤ 9223372036854775807 →
              res = (sortWorkflows w.committed.workflows).drop offset.toNat)) := by
  constructor
  · intro h
    unfold WorkflowsList
    rw [if_pos h]
  · intro h1 h2
    unfold WorkflowsList
    rw [if_neg (by omega)]
    refine ⟨_, rfl, ?_, ?_⟩
    · exact List.Pairwise.sublist
        ((List.take_sublist _ _).trans (List.drop_sublist _ _))
        (List.sorted_insertionSort wfLe _)
    · intro hl hlen
      rw [if_pos hl]
      apply List.take_of_length_le
      rw [List.length_drop]
      unfold sortWorkflows dbTraceQuery
      rw [List.length_insertionSort]
      simp only []
      omega

/-- C8 witness: over the store with ids 1, 2, 3, a negative offset is
rejected, and `List(0, 0)` succeeds with a sorted, complete result. -/
theorem listValidatesAndOrdersWitness :
    WorkflowsList (-1) 0 wThree
        = (Outcome.ret none (some "offset and limit must be non-negative integers"), wThree)
    ∧ ∃ res, (WorkflowsList 0 0 wThree).1 = Outcome.ret (some res) none
        ∧ List.Sorted wfLe res
        ∧ ((0 : Int) = 0 → wThree.committed.workflows.length ≤ 9223372036854775807 →
            res = (sortWorkflows wThree.committed.workflows).drop (0 : Int).toNat) :=
  ⟨(listValidatesAndOrders (-1) 0 wThree).1 (Or.inl (by decide)),
   (listValidatesAndOrders 0 0 wThree).2 (by decide) (by decide)⟩

/-- C10: on non-negative arguments over a store in which no row falls
inside the offset/limit window (every row is skipped by the offset),
`List` returns an allocated empty slice and no error — not a nil slice
and not a failure. -/
theorem listNoRowsGivesEmptySlice (offset limit : Int) (w : World)
    (h1 : 0 ≤ offset) (h2 : 0 ≤ limit)
    (h3 : w.committed.workflows.length ≤ offset.toNat) :
    (WorkflowsList offset limit w).1 = Outcome.ret (some []) none := by
  unfold WorkflowsList dbTraceQuery
  rw [if_neg (by omega)]
  have hd : (sortWorkflows w.committed.workflows).drop offset.toNat = [] := by
    apply List.drop_eq_nil_of_le
    unfold sortWorkflows
    rw [List.length_insertionSort]
    exact h3
  simp only [hd, List.take_nil]

/-- C10 witness: listing an empty store returns the empty slice. -/
theorem listNoRowsGivesEmptySliceWitness :
    (WorkflowsList 0 0 wFix).1 = Outcome.ret (some []) none :=
  listNoRowsGivesEmptySlice 0 0 wFix (by decide) (by decide) (by decide)

/-- C4 counterexample: an event whose document type (2) differs from
the workflow's (1) but whose status is already Applied is answered with
the AlreadyApplied error, not the TypeMismatch error the claim
promises for every mismatched event — the status check at
workflow.go:82 runs before the type check at workflow.go:85. -/
theorem appliedMismatchReturnsAlreadyApplied :
    Workflow.ApplyEvent wfFix none (some ⟨100, 2, 10, 1, EventStatus.Applied⟩) [7] wFix
      = (Outcome.ret (0, some ⟨100, 2, 10, 1, EventStatus.Applied⟩)
          (some "event already applied; nothing to do"), wFix)
    ∧ "event already applied; nothing to do" ≠ typeMismatchMsg 1 2 := by
  refine ⟨rfl, ?_⟩
  decide

/-- C4 (amended): for every workflow and every non-nil, not yet
applied event with non-empty recipients whose document type differs
from the workflow's, `ApplyEvent` returns the TypeMismatch error and
performs no mutation of any kind — the world comes back exactly as it
went in. -/
theorem typeMismatchRejectsUnapplied (wf : Workflow) (otx : Option Nat) (ev : DocEvent)
    (recipients : List GroupID) (w : World)
    (hr : recipients ≠ []) (hs : ev.status ≠ EventStatus.Applied)
    (hd : wf.dtype ≠ ev.dtype) :
    Workflow.ApplyEvent wf otx (some ev) recipients w
      = (Outcome.ret (0, some ev) (some (typeMismatchMsg wf.dtype ev.dtype)), w) := by
  show (if recipients.length = 0 then _ else
      if ev.status = EventStatus.Applied then _ else
      if wf.dtype ≠ ev.dtype then
        (Outcome.ret (0, some ev) (some (typeMismatchMsg wf.dtype ev.dtype)), w)
      else _) = _
  rw [if_neg (by simpa using hr), if_neg hs, if_pos hd]

/-- C4 witness: a Created event of document type 2 against the
workflow of document type 1 is rejected with the TypeMismatch error
and an unchanged world. -/
theorem typeMismatchRejectsUnappliedWitness :
    Workflow.ApplyEvent wfFix none (some ⟨100, 2, 10, 1, EventStatus.Created⟩) [7] wFix
      = (Outcome.ret (0, some ⟨100, 2, 10, 1, EventStatus.Created⟩)
          (some (typeMismatchMsg 1 2)), wFix) :=
  typeMismatchRejectsUnapplied wfFix none ⟨100, 2, 10, 1, EventStatus.Created⟩ [7] wFix
    (by decide) (by decide) (by decide)

/-- On a successful `nodeApplyEvent` the returned in-memory event is
the input event with its status flipped to Applied. -/
theorem nodeApplyEvent_ok_status (n : Node) (tx : Option Nat) (ev : DocEvent)
    (rs : List GroupID) (w w' : World) (ns : DocStateID) (ev' : DocEvent)
    (h : nodeApplyEvent n tx ev rs w = (Outcome.ret (ns, ev') none, w')) :
    ev'.status = EventStatus.Applied := by
  unfold nodeApplyEvent at h
  repeat' split at h
  all_goals try simp_all
  obtain ⟨⟨-, h2⟩, -⟩ := h
  rw [← h2]

/-- On a successful `applyEventRest` the event handed back is the one
`nodeApplyEvent` produced, so its status is Applied. -/
theorem applyEventRest_ok_status (tx otx : Option Nat) (n : Node) (ev : DocEvent)
    (rs : List GroupID) (w w' : World) (ns : DocStateID) (oev : Option DocEvent)
    (h : applyEventRest tx otx n ev rs w = (Outcome.ret (ns, oev) none, w')) :
    ∃ ev', oev = some ev' ∧ ev'.status = EventStatus.Applied := by
  unfold applyEventRest at h
  repeat' split at h
  all_goals simp_all
  all_goals
    obtain ⟨⟨-, h2⟩, -⟩ := h
    exact ⟨_, h2.symm, nodeApplyEvent_ok_status _ _ _ _ _ _ _ _ (by assumption)⟩

/-- Projection form of `applyEventRest_ok_status`, for use where only
the result component of the pair is known. -/
theorem applyEventRest_ok_statusFst (tx otx : Option Nat) (n : Node) (ev : DocEvent)
    (rs : List GroupID) (w : World) (ns : DocStateID) (oev : Option DocEvent)
    (h : (applyEventRest tx otx n ev rs w).1 = Outcome.ret (ns, oev) none) :
    ∃ ev', oev = some ev' ∧ ev'.status = EventStatus.Applied :=
  applyEventRest_ok_status tx otx n ev rs w (applyEventRest tx otx n ev rs w).2 ns oev
    (Prod.ext h rfl)

/-- On a successful `Workflow.ApplyEvent` the in-memory event handed
back through the pointer has status Applied. -/
theorem applyEvent_ok_status (wf : Workflow) (otx : Option Nat) (ev : DocEvent)
    (rs : List GroupID) (w w' : World) (ns : DocStateID) (oev : Option DocEvent)
    (h : Workflow.ApplyEvent wf otx (some ev) rs w = (Outcome.ret (ns, oev) none, w')) :
    ∃ ev', oev = some ev' ∧ ev'.status = EventStatus.Applied := by
  unfold Workflow.ApplyEvent withDeferredRollback at h
  repeat' split at h
  all_goals try simp_all
  all_goals
    first
    | exact applyEventRest_ok_status _ _ _ _ _ _ _ _ _ (by assumption)
    | exact applyEventRest_ok_statusFst _ _ _ _ _ _ _ _ h.1

/-- A world over `dbFix` in which the caller has already opened
transaction 5, whose pending view equals the committed store. -/
def wCaller : World := ⟨dbFix, fun j => if j = 5 then some dbFix else none, 6, false, []⟩

/-- C3: an event whose status is already Applied is answered with the
AlreadyApplied error and the world is returned untouched, and hence
applying the same event twice — whatever workflow, transaction handle
and (non-empty) recipients the second call uses — has the second call
return AlreadyApplied while every effect of the first call stays
exactly as the first call left it: the status moves Created→Applied at
most once. -/
theorem alreadyAppliedRejectedAndOnce :
    (∀ wf otx ev rs w, rs ≠ [] → ev.status = EventStatus.Applied →
        Workflow.ApplyEvent wf otx (some ev) rs w
          = (Outcome.ret (0, some ev) (some "event already applied; nothing to do"), w))
    ∧ (∀ wf otx ev rs w ns ev' w',
        Workflow.ApplyEvent wf otx (some ev) rs w = (Outcome.ret (ns, some ev') none, w') →
        ∀ wf2 otx2 rs2, rs2 ≠ [] →
          Workflow.ApplyEvent wf2 otx2 (some ev') rs2 w'
            = (Outcome.ret (0, some ev') (some "event already applied; nothing to do"), w')) := by
  have base : ∀ (wf : Workflow) (otx : Option Nat) (ev : DocEvent) (rs : List GroupID)
      (w : World), rs ≠ [] → ev.status = EventStatus.Applied →
      Workflow.ApplyEvent wf otx (some ev) rs w
        = (Outcome.ret (0, some ev) (some "event already applied; nothing to do"), w) := by
    intro wf otx ev rs w hr hs
    show (if rs.length = 0 then _ else
        if ev.status = EventStatus.Applied then
          (Outcome.ret (0, some ev) (some "event already applied; nothing to do"), w)
        else _) = _
    rw [if_neg (by simpa using hr), if_pos hs]
  refine ⟨base, ?_⟩
  intro wf otx ev rs w ns ev' w' h wf2 otx2 rs2 hr2
  obtain ⟨ev'', hev, hst⟩ := applyEvent_ok_status wf otx ev rs w w' ns (some ev') h
  obtain rfl : ev' = ev'' := by injection hev
  exact base wf2 otx2 ev' rs2 w' hr2 hst

/-- C3 witness: over `wCaller` the first application of `evFix`
through the caller's transaction succeeds; re-applying the returned
(now Applied) event is rejected with AlreadyApplied and leaves the
post-first-call world untouched. -/
theorem alreadyAppliedRejectedAndOnceWitness :
    Workflow.ApplyEvent wfFix (some 5) (some ⟨100, 1, 10, 1, EventStatus.Applied⟩) [7]
        (Workflow.ApplyEvent wfFix (some 5) (some evFix) [7] wCaller).2
      = (Outcome.ret (0, some ⟨100, 1, 10, 1, EventStatus.Applied⟩)
          (some "event already applied; nothing to do"),
         (Workflow.ApplyEvent wfFix (some 5) (some evFix) [7] wCaller).2) :=
  alreadyAppliedRejectedAndOnce.2 wfFix (some 5) evFix [7] wCaller 20
    ⟨100, 1, 10, 1, EventStatus.Applied⟩
    (Workflow.ApplyEvent wfFix (some 5) (some evFix) [7] wCaller).2
    (Prod.ext rfl rfl) wfFix (some 5) [7] (by decide)

/-- Every error return of `workflowsNewRest` carries the zero id. -/
theorem workflowsNewRest_err_zero (tx otx : Option Nat) (name : String)
    (dtype : DocTypeID) (state : DocStateID) (w : World) (v : Int) (e : String)
    (h : (workflowsNewRest tx otx name dtype state w).1 = Outcome.ret v (some e)) :
    v = 0 := by
  unfold workflowsNewRest at h
  repeat' split at h
  all_goals simp_all

/-- Every error return of `WorkflowsNew` carries the zero id. -/
theorem workflowsNew_err_zero (otx : Option Nat) (name : String) (dtype : DocTypeID)
    (state : DocStateID) (w : World) (v : Int) (e : String)
    (h : (WorkflowsNew otx name dtype state w).1 = Outcome.ret v (some e)) : v = 0 := by
  unfold WorkflowsNew withDeferredRollback at h
  by_cases hn : trimSpace name = ""
  · simp [hn] at h
    simp_all
  · simp only [if_neg hn] at h
    repeat' split at h
    all_goals try simp_all
    all_goals exact workflowsNewRest_err_zero _ _ _ _ _ _ _ _ (by assumption)

/-- Every error return of `execTransitions` is value-free. -/
theorem addNodeRest_err_zero (tx otx : Option Nat) (dtype : DocTypeID)
    (state : DocStateID) (wid : Int) (name : String) (ntype : Int)
    (hash : List (DocActionID × DocStateID)) (w : World) (v : Int) (e : String)
    (h : (addNodeRest tx otx dtype state wid name ntype hash w).1 = Outcome.ret v (some e)) :
    v = 0 := by
  unfold addNodeRest at h
  repeat' split at h
  all_goals simp_all

/-- Every error return of `WorkflowsAddNode` carries the zero id. -/
theorem workflowsAddNode_err_zero (otx : Option Nat) (dtype : DocTypeID)
    (state : DocStateID) (wid : Int) (name : String) (ntype : Int)
    (hash : List (DocActionID × DocStateID)) (w : World) (v : Int) (e : String)
    (h : (WorkflowsAddNode otx dtype state wid name ntype hash w).1 = Outcome.ret v (some e)) :
    v = 0 := by
  unfold WorkflowsAddNode withDeferredRollback at h
  by_cases hn : trimSpace name = ""
  · simp [hn] at h
    simp_all
  · simp only [if_neg hn] at h
    by_cases hh : hash.length = 0
    · simp [hh] at h
      simp_all
    · simp only [if_neg hh] at h
      repeat' split at h
      all_goals try simp_all
      all_goals exact addNodeRest_err_zero _ _ _ _ _ _ _ _ _ _ _ (by assumption)

/-- Every error return of `applyEventRest` carries the zero state. -/
theorem applyEventRest_err_zero (tx otx : Option Nat) (n : Node) (ev : DocEvent)
    (rs : List GroupID) (w : World) (v : DocStateID) (oev : Option DocEvent) (e : String)
    (h : (applyEventRest tx otx n ev rs w).1 = Outcome.ret (v, oev) (some e)) : v = 0 := by
  unfold applyEventRest at h
  repeat' split at h
  all_goals simp_all

/-- Every error return of `Workflow.ApplyEvent` carries the zero
state. -/
theorem applyEvent_err_zero (wf : Workflow) (otx : Option Nat) (ev? : Option DocEvent)
    (rs : List GroupID) (w : World) (v : DocStateID) (oev : Option DocEvent) (e : String)
    (h : (Workflow.ApplyEvent wf otx ev? rs w).1 = Outcome.ret (v, oev) (some e)) : v = 0 := by
  unfold Workflow.ApplyEvent withDeferredRollback at h
  repeat' split at h
  all_goals try simp_all
  all_goals exact applyEventRest_err_zero _ _ _ _ _ _ _ _ _ (by assumption)

/-- C9: whenever `ApplyEvent`, `New` or `AddNode` returns a non-nil
error, the accompanying value is 0 — a caller never receives a nonzero
state or identifier together with an error. -/
theorem errorPathsReturnZero :
    (∀ wf otx ev? rs w v oev e,
        (Workflow.ApplyEvent wf otx ev? rs w).1 = Outcome.ret (v, oev) (some e) → v = 0)
    ∧ (∀ otx name dtype state w v e,
        (WorkflowsNew otx name dtype state w).1 = Outcome.ret v (some e) → v = 0)
    ∧ (∀ otx dtype state wid name ntype hash w v e,
        (WorkflowsAddNode otx dtype state wid name ntype hash w).1
          = Outcome.ret v (some e) → v = 0) :=
  ⟨fun wf otx ev? rs w v oev e h => applyEvent_err_zero wf otx ev? rs w v oev e h,
   fun otx name dtype state w v e h => workflowsNew_err_zero otx name dtype state w v e h,
   fun otx dtype state wid name ntype hash w v e h =>
     workflowsAddNode_err_zero otx dtype state wid name ntype hash w v e h⟩

/-- C9 witness: three concrete erroring calls — a nil event, a blank
workflow name and an empty transitions map — each return the zero
value beside their error. -/
theorem errorPathsReturnZeroWitness :
    ((0 : DocStateID) = 0) ∧ ((0 : Int) = 0) ∧ ((0 : Int) = 0) :=
  ⟨errorPathsReturnZero.1 wfFix none none [] wFix 0 none "event should be non-nil" rfl,
   errorPathsReturnZero.2.1 none "" 1 1 wFix 0 "name should not be empty" (by decide),
   errorPathsReturnZero.2.2 none 1 1 1 "n" 1 [] wFix 0
     "transitions map should have length > 0" (by decide)⟩

/-- True of the operations a call participating in caller transaction
`t` may issue: reads, and statement executions on `t` itself — never a
begin, a commit or a rollback, and never an execution on another
transaction. -/
def opOnTx (t : Nat) : Op → Bool
  | Op.exec j _ => j == t
  | Op.query _ => true
  | _ => false

/-- Holds when `w'` extends `w` by reads and executions on transaction `t` only:
the committed store, the fresh-id supply and every other transaction
are untouched, `t` is not closed, and the trace grows only by
operations satisfying `opOnTx` — in particular no commit and no
rollback of any transaction. -/
def ExtendsOnlyOn (t : Nat) (w w' : World) : Prop :=
  w'.committed = w.committed
  ∧ w'.nextTx = w.nextTx
  ∧ w'.beginFails = w.beginFails
  ∧ (∀ j, j ≠ t → w'.openTxs j = w.openTxs j)
  ∧ ((w.openTxs t).isSome → (w'.openTxs t).isSome)
  ∧ ∃ ops, w'.trace = w.trace ++ ops ∧ ops.all (opOnTx t) = true

/-- Reflexivity of `ExtendsOnlyOn`. -/
theorem extendsOnlyOn_refl (t : Nat) (w : World) : ExtendsOnlyOn t w w :=
  ⟨rfl, rfl, rfl, fun _ _ => rfl, fun h => h, [], by simp, rfl⟩

/-- Composition of `ExtendsOnlyOn`. -/
theorem extendsOnlyOn_trans {t : Nat} {w1 w2 w3 : World}
    (h12 : ExtendsOnlyOn t w1 w2) (h23 : ExtendsOnlyOn t w2 w3) :
    ExtendsOnlyOn t w1 w3 := by
  obtain ⟨c12, n12, b12, o12, s12, ops1, t12, a12⟩ := h12
  obtain ⟨c23, n23, b23, o23, s23, ops2, t23, a23⟩ := h23
  refine ⟨c23.trans c12, n23.trans n12, b23.trans b12, ?_, fun h => s23 (s12 h),
    ops1 ++ ops2, ?_, ?_⟩
  · intro j hj
    rw [o23 j hj, o12 j hj]
  · rw [t23, t12, List.append_assoc]
  · simp only [List.all_append, a12, a23, Bool.and_self]

/-- A statement executed through the caller's open transaction `t`
only touches `t`'s pending view and appends one execution to the
trace. -/
theorem txExec_extendsOnlyOn (t : Nat) (req : ExecReq) (w : World) :
    ExtendsOnlyOn t w (txExec (some t) req w).2 := by
  unfold txExec
  cases ho : w.openTxs t with
  | none =>
    simp only [ho]
    exact extendsOnlyOn_refl t w
  | some pending =>
    simp only [ho]
    cases hi : dbInsert req pending with
    | error e =>
      simp only [hi]
      exact ⟨rfl, rfl, rfl, fun _ _ => rfl, by simp [ho], [Op.exec t req], rfl, by simp [opOnTx]⟩
    | ok p =>
      obtain ⟨id, pending'⟩ := p
      simp only [hi]
      refine ⟨rfl, rfl, rfl, ?_, ?_, [Op.exec t req], rfl, by simp [opOnTx]⟩
      · intro j hj
        simp [hj]
      · intro _
        simp

/-- A read query appends one trace entry and changes nothing else. -/
theorem dbTraceQuery_extendsOnlyOn (t : Nat) (q : QueryReq) (w : World) :
    ExtendsOnlyOn t w (dbTraceQuery q w) :=
  ⟨rfl, rfl, rfl, fun _ _ => rfl, fun h => h, [Op.query q], rfl, rfl⟩

/-- The intent-insertion loop through the caller's transaction only
touches that transaction. -/
theorem insertIntents_extendsOnlyOn (t : Nat) (eid : Int) (ns : DocStateID)
    (rs : List GroupID) (w : World) :
    ExtendsOnlyOn t w (insertIntents (some t) eid ns rs w).2 := by
  induction rs generalizing w with
  | nil => exact extendsOnlyOn_refl t w
  | cons g rest ih =>
    unfold insertIntents
    have h1 := txExec_extendsOnlyOn t (ExecReq.insIntent eid ns g) w
    cases hE : txExec (some t) (ExecReq.insIntent eid ns g) w with
    | mk r w1 =>
      rw [hE] at h1
      cases r with
      | panic => simpa [hE] using h1
      | ret val err =>
        cases err with
        | some e => simpa [hE] using h1
        | none =>
          simp only [hE]
          exact extendsOnlyOn_trans h1 (ih w1)

/-- The transition-insertion loop through the caller's transaction
only touches that transaction. -/
theorem execTransitions_extendsOnlyOn (t : Nat) (dtype : DocTypeID) (state : DocStateID)
    (hash : List (DocActionID × DocStateID)) (w : World) :
    ExtendsOnlyOn t w (execTransitions (some t) dtype state hash w).2 := by
  induction hash generalizing w with
  | nil => exact extendsOnlyOn_refl t w
  | cons p rest ih =>
    obtain ⟨da, ds⟩ := p
    unfold execTransitions
    have h1 := txExec_extendsOnlyOn t (ExecReq.insTransition dtype state da ds) w
    cases hE : txExec (some t) (ExecReq.insTransition dtype state da ds) w with
    | mk r w1 =>
      rw [hE] at h1
      cases r with
      | panic => simpa [hE] using h1
      | ret val err =>
        cases err with
        | some e => simpa [hE] using h1
        | none =>
          simp only [hE]
          exact extendsOnlyOn_trans h1 (ih w1)

/-- The spec-modelled node application through the caller's
transaction only touches that transaction. -/
theorem nodeApplyEvent_extendsOnlyOn (t : Nat) (n : Node) (ev : DocEvent)
    (rs : List GroupID) (w : World) :
    ExtendsOnlyOn t w (nodeApplyEvent n (some t) ev rs w).2 := by
  unfold nodeApplyEvent
  cases hL : List.lookup ev.action n.transitions with
  | none =>
    simp only [hL]
    exact extendsOnlyOn_refl t w
  | some toState =>
    simp only [hL]
    have h1 := txExec_extendsOnlyOn t (ExecReq.setEventApplied ev.id) w
    cases hE : txExec (some t) (ExecReq.setEventApplied ev.id) w with
    | mk r w1 =>
      rw [hE] at h1
      cases r with
      | panic => simpa [hE] using h1
      | ret val err =>
        cases err with
        | some e => simpa [hE] using h1
        | none =>
          have h2 := insertIntents_extendsOnlyOn t ev.id toState rs w1
          cases hI : insertIntents (some t) ev.id toState rs w1 with
          | mk r2 w2 =>
            rw [hI] at h2
            cases r2 with
            | panic =>
              simp only [hE, hI]
              exact extendsOnlyOn_trans h1 h2
            | ret v2 e2 =>
              cases e2 <;> simp only [hE, hI] <;> exact extendsOnlyOn_trans h1 h2

/-- The node lookup reads the committed store and appends one query to
the trace, whatever it answers. -/
theorem nodesGetByState_extendsOnlyOn (t : Nat) (d s : Int) (w : World) :
    ExtendsOnlyOn t w (nodesGetByState d s w).2 := by
  unfold nodesGetByState
  cases hF : (dbTraceQuery (QueryReq.nodeByState d s) w).committed.nodes.find?
      (fun r => r.dtype == d && r.state == s) with
  | none =>
    simp only [hF]
    exact dbTraceQuery_extendsOnlyOn t (QueryReq.nodeByState d s) w
  | some r =>
    simp only [hF]
    exact dbTraceQuery_extendsOnlyOn t (QueryReq.nodeByState d s) w

/-- Running `applyEventRest` through the caller's transaction only touches
that transaction (with `otx` supplied it never reaches the commit). -/
theorem applyEventRest_extendsOnlyOn (t : Nat) (n : Node) (ev : DocEvent)
    (rs : List GroupID) (w : World) :
    ExtendsOnlyOn t w (applyEventRest (some t) (some t) n ev rs w).2 := by
  unfold applyEventRest
  have h1 := nodeApplyEvent_extendsOnlyOn t n ev rs w
  cases hN : nodeApplyEvent n (some t) ev rs w with
  | mk r w1 =>
    rw [hN] at h1
    cases r with
    | panic => simpa [hN] using h1
    | ret p err =>
      obtain ⟨ns, ev'⟩ := p
      cases err with
      | some e => simpa [hN] using h1
      | none => simpa [hN] using h1

/-- Running `workflowsNewRest` through the caller's transaction only touches
that transaction. -/
theorem workflowsNewRest_extendsOnlyOn (t : Nat) (name : String) (d s : Int) (w : World) :
    ExtendsOnlyOn t w (workflowsNewRest (some t) (some t) name d s w).2 := by
  unfold workflowsNewRest
  have h1 := txExec_extendsOnlyOn t (ExecReq.insWorkflow name d s) w
  cases hE : txExec (some t) (ExecReq.insWorkflow name d s) w with
  | mk r w1 =>
    rw [hE] at h1
    cases r with
    | panic => simpa [hE] using h1
    | ret id err =>
      cases err with
      | some e => simpa [hE] using h1
      | none => simpa [hE] using h1

/-- Running `addNodeRest` through the caller's transaction only touches that
transaction. -/
theorem addNodeRest_extendsOnlyOn (t : Nat) (dtype : DocTypeID) (state : DocStateID)
    (wid : Int) (name : String) (ntype : Int) (hash : List (DocActionID × DocStateID))
    (w : World) :
    ExtendsOnlyOn t w (addNodeRest (some t) (some t) dtype state wid name ntype hash w).2 := by
  unfold addNodeRest
  have h1 := txExec_extendsOnlyOn t (ExecReq.insNode dtype state wid name ntype) w
  cases hE : txExec (some t) (ExecReq.insNode dtype state wid name ntype) w with
  | mk r w1 =>
    rw [hE] at h1
    cases r with
    | panic => simpa [hE] using h1
    | ret id err =>
      cases err with
      | some e => simpa [hE] using h1
      | none =>
        have h2 := execTransitions_extendsOnlyOn t dtype state hash w1
        cases hT : execTransitions (some t) dtype state hash w1 with
        | mk r2 w2 =>
          rw [hT] at h2
          cases r2 with
          | panic =>
            simp only [hE, hT]
            exact extendsOnlyOn_trans h1 h2
          | ret v2 e2 =>
            cases e2 <;> simp only [hE, hT] <;> exact extendsOnlyOn_trans h1 h2

/-- C5: a call to `ApplyEvent`, `New` or `AddNode` that is handed the
caller's open transaction `t` works exclusively through `t`: the
committed store and every other transaction are untouched, `t` stays
open, and the trace grows only by reads and executions on `t` — never
a begin, a commit or a rollback, on success, failure or panic alike. -/
theorem callerTxNeverCommittedNorRolledBack :
    (∀ (t : Nat) (wf : Workflow) (ev? : Option DocEvent) (rs : List GroupID) (w : World),
        ExtendsOnlyOn t w (Workflow.ApplyEvent wf (some t) ev? rs w).2)
    ∧ (∀ (t : Nat) (name : String) (dtype : DocTypeID) (state : DocStateID) (w : World),
        ExtendsOnlyOn t w (WorkflowsNew (some t) name dtype state w).2)
    ∧ (∀ (t : Nat) (dtype : DocTypeID) (state : DocStateID) (wid : Int) (name : String)
        (ntype : Int) (hash : List (DocActionID × DocStateID)) (w : World),
        ExtendsOnlyOn t w (WorkflowsAddNode (some t) dtype state wid name ntype hash w).2) := by
  refine ⟨?_, ?_, ?_⟩
  · intro t wf ev? rs w
    unfold Workflow.ApplyEvent
    cases ev? with
    | none => exact extendsOnlyOn_refl t w
    | some ev =>
      by_cases h1 : rs.length = 0
      · simp only [if_pos h1]
        exact extendsOnlyOn_refl t w
      · simp only [if_neg h1]
        by_cases h2 : ev.status = EventStatus.Applied
        · simp only [if_pos h2]
          exact extendsOnlyOn_refl t w
        · simp only [if_neg h2]
          by_cases h3 : wf.dtype ≠ ev.dtype
          · simp only [if_pos h3]
            exact extendsOnlyOn_refl t w
          · simp only [if_neg h3]
            have hg := nodesGetByState_extendsOnlyOn t wf.dtype ev.state w
            cases hG : nodesGetByState wf.dtype ev.state w with
            | mk pr w1 =>
              rw [hG] at hg
              obtain ⟨optN, optE⟩ := pr
              cases optE with
              | some e =>
                cases optN <;> simpa [hG] using hg
              | none =>
                cases optN with
                | none => simpa [hG] using hg
                | some n =>
                  simp only [hG]
                  exact extendsOnlyOn_trans hg (applyEventRest_extendsOnlyOn t n ev rs w1)
  · intro t name dtype state w
    unfold WorkflowsNew
    by_cases hn : trimSpace name = ""
    · simp only [if_pos hn]
      exact extendsOnlyOn_refl t w
    · simp only [if_neg hn]
      exact workflowsNewRest_extendsOnlyOn t (trimSpace name) dtype state w
  · intro t dtype state wid name ntype hash w
    unfold WorkflowsAddNode
    by_cases hn : trimSpace name = ""
    · simp only [if_pos hn]
      exact extendsOnlyOn_refl t w
    · simp only [if_neg hn]
      by_cases hh : hash.length = 0
      · simp only [if_pos hh]
        exact extendsOnlyOn_refl t w
      · simp only [if_neg hh]
        exact addNodeRest_extendsOnlyOn t dtype state wid (trimSpace name) ntype hash w
